import Mathlib

/-!
# noteRAG — verification of the retrieval/indexing core

Shallow embedding of `python_server/rag_core.py` (class `NoteRAG`) and the
write-path handlers of `python_server/main.py`.  External collaborators
(ChromaDB, the llama_index node parser, the OpenAI LLM) are modelled as
parameters: the chunker is a function `String → List String`, the vector
backend's retrieval result is passed in as data, the LLM is a function
returning `Except` (an exception is an `Except.error`).  Python dicts are
modelled as association lists where assignment appends and lookup takes the
last binding (write-wins semantics).  Similarity scores are opaque to the
code (never computed with), so they are modelled as `Option Int`
(`None`-able, as `NodeWithScore.score` is).
-/

namespace NoteRAG

/-- A row of the relational note store (`models.Note`): id, owner,
title, text and the two timestamps (kept as strings, as the code only
ever calls `.isoformat()` on them). -/
structure Note where
  id : String
  user_id : String
  title : String
  text : String
  created_at : String
  updated_at : String
deriving Repr, DecidableEq

/-- A node returned by `self.index.as_retriever(...).retrieve(query)`:
its internal `node_id`, its metadata dict, and its similarity score. -/
structure RetrievedNode where
  node_id : String
  metadata : List (String × String)
  score : Option Int
deriving Repr, DecidableEq

/-- One vector record in the backing Chroma collection: the chunk text
plus the metadata dict it was tagged with. -/
structure VectorRecord where
  text : String
  metadata : List (String × String)
deriving Repr, DecidableEq

/-- Python `dict.get(k)` / `d[k]` on an association list with
write-wins semantics: the last binding of the key wins. -/
def dictGet {α : Type} (ps : List (String × α)) (k : String) : Option α :=
  (ps.reverse.find? (fun p => p.1 = k)).map (·.2)

/-- Python `d[k] = v`: append the binding; `dictGet` takes the last one. -/
def dictSet {α : Type} (ps : List (String × α)) (k : String) (v : α) :
    List (String × α) :=
  ps ++ [(k, v)]

/-- One entry of the list returned by `NoteRAG.search_notes`. -/
structure SearchResult where
  id : String
  text : String
  title : String
  created_at : String
  updated_at : String
  score : Option Int
deriving Repr, DecidableEq

/-- One entry of the `source_nodes` list returned by `NoteRAG.query_notes`
(`title` is `none` when no DB row supplied one). -/
structure SourceNode where
  id : String
  score : Option Int
  title : Option String
deriving Repr, DecidableEq

/-- The dict returned by `NoteRAG.query_notes`. -/
structure QueryResult where
  response : String
  source_nodes : List SourceNode
deriving Repr, DecidableEq

/-- Which external calls a request actually performed: did it reach the
vector retriever, and did it invoke the language model. -/
structure Trace where
  retrieverCalled : Bool
  llmCalled : Bool
deriving Repr, DecidableEq

/-- The SQLAlchemy query
`db.query(Note).filter(Note.id.in_(ids), Note.user_id == u).all()`:
rows whose id is among `ids` and whose owner is `u`, in store order. -/
def dbNotesQuery (db : List Note) (ids : List String) (u : String) :
    List Note :=
  db.filter (fun nt => ids.contains nt.id && nt.user_id == u)

/-- Body of the `try` block of `NoteRAG.search_notes` after retrieval:
collects `note_ids = [node.node_id for node in retrieved_nodes]` (the
internal node ids, exactly as the source does), builds the score and DB
maps as dict comprehensions, and re-emits in retriever order, skipping
ids with no DB row. -/
def searchCore (u : String) (retrieved : List RetrievedNode)
    (db : List Note) : List SearchResult :=
  if retrieved.isEmpty then []
  else
    let note_ids := retrieved.map (·.node_id)
    let scores_map := retrieved.map (fun n => (n.node_id, n.score))
    let notes_from_db := dbNotesQuery db note_ids u
    let db_notes_map := notes_from_db.map (fun nt => (nt.id, nt))
    note_ids.filterMap (fun nid =>
      match dictGet db_notes_map nid with
      | some nt =>
          some { id := nt.id, text := nt.text, title := nt.title,
                 created_at := nt.created_at, updated_at := nt.updated_at,
                 score := (dictGet scores_map nid).join }
      | none => none)

/-- Embedding of `NoteRAG.search_notes`, with the retriever's answer passed as data and
the performed external calls recorded in a `Trace`.  A missing user
context returns `[]` before any retrieval. -/
def search_notes (user_email : Option String)
    (retrieved : List RetrievedNode) (db : List Note) :
    List SearchResult × Trace :=
  match user_email with
  | none => ([], ⟨false, false⟩)
  | some u => (searchCore u retrieved db, ⟨true, false⟩)

/-- The search the spec describes (§4.2): collect the ordered metadata
`doc_id`s of the adapter hits, one batched owner-filtered lookup, re-emit
in the adapter's order with scores attached.  Stated from the spec's
words, to be compared against `searchCore` (which the source writes with
`node.node_id` instead of the metadata `doc_id`). -/
def searchSpec (u : String) (retrieved : List RetrievedNode)
    (db : List Note) : List SearchResult :=
  let doc_ids := retrieved.filterMap (fun n => dictGet n.metadata "doc_id")
  let notes_from_db := dbNotesQuery db doc_ids u
  retrieved.filterMap (fun n =>
    match dictGet n.metadata "doc_id" with
    | none => none
    | some d =>
        match notes_from_db.find? (fun nt => nt.id == d) with
        | none => none
        | some nt =>
            some { id := nt.id, text := nt.text, title := nt.title,
                   created_at := nt.created_at, updated_at := nt.updated_at,
                   score := n.score })

/-- The fixed responses of `NoteRAG.query_notes`, verbatim. -/
def noUserResponse : String := "Error: User context is required for querying."

def noNotesResponse : String :=
  "Could not find relevant notes to answer the question."

def noLinkResponse : String :=
  "Found potentially relevant information, but could not link it back to specific notes."

def noContentResponse : String :=
  "Found potentially relevant note references, but could not retrieve their content."

def llmErrorResponse : String := "An error occurred while processing the query."

/-- The context block `query_notes` builds from the DB rows, verbatim. -/
def contextStr (notes_from_db : List Note) : String :=
  String.intercalate "\n" (notes_from_db.map (fun nt =>
    "---\nNote Title: " ++ nt.title ++ "\nNote Content: " ++ nt.text ++ "\n---"))

/-- The completion prompt `query_notes` sends to the LLM, verbatim
(including the stray trailing quote of the f-string). -/
def ragPrompt (ctx query : String) : String :=
  "Based ONLY on the following context extracted from user notes, please answer the question.\n"
    ++ "If the context does not contain the answer, say so.\n\n"
    ++ "Context:\n" ++ ctx ++ "\n\n"
    ++ "Question: " ++ query ++ "\n\n"
    ++ "Answer:\""

/-- The `doc_id`-extraction loop of `query_notes`: for each retrieved
node, `node.metadata.get('doc_id')` with Python truthiness (`if pg_id:` —
a missing or empty-string `doc_id` is skipped, with a logged warning),
yielding the `(pg_id, score)` pairs that feed both `note_ids` and
`source_nodes_metadata`. -/
def extractPairs (retrieved : List RetrievedNode) :
    List (String × Option Int) :=
  retrieved.filterMap (fun n =>
    match dictGet n.metadata "doc_id" with
    | some d => if d = "" then none else some (d, n.score)
    | none => none)

/-- The `source_nodes_metadata` entries `query_notes` accumulates:
extracted id, score, and (not yet) a title. -/
def sourceMeta (pairs : List (String × Option Int)) : List SourceNode :=
  pairs.map (fun p => { id := p.1, score := p.2, title := none })

/-- The final title enrichment of `query_notes`:
`next((n.title for n in notes_from_db if n.id == meta["id"]), None)`. -/
def enrichSource (notes_from_db : List Note) (m : SourceNode) : SourceNode :=
  { m with
    title := (notes_from_db.find? (fun nt => nt.id == m.id)).map (·.title) }

/-- Embedding of `NoteRAG.query_notes`: the RAG answer path.  The retriever's answer is
passed as data; the LLM is a function whose `Except.error` models a raised
exception, caught by the surrounding `try`.  Mirrors the source branch by
branch: missing user context; zero retrieved nodes; `doc_id` extraction
(`extractPairs`); zero extracted ids; zero matching DB rows (note:
`source_nodes` is the full extracted metadata list there); context
assembly, one LLM call, and title enrichment of every extracted source
entry. -/
def query_notes (user_email : Option String)
    (retrieved : List RetrievedNode) (db : List Note)
    (llm : String → Except String String) (query : String) :
    QueryResult × Trace :=
  match user_email with
  | none => ({ response := noUserResponse, source_nodes := [] }, ⟨false, false⟩)
  | some u =>
    if retrieved.isEmpty then
      ({ response := noNotesResponse, source_nodes := [] }, ⟨true, false⟩)
    else
      let pairs := extractPairs retrieved
      let note_ids := pairs.map (·.1)
      if note_ids.isEmpty then
        ({ response := noLinkResponse, source_nodes := [] }, ⟨true, false⟩)
      else
        let notes_from_db := dbNotesQuery db note_ids u
        if notes_from_db.isEmpty then
          ({ response := noContentResponse,
             source_nodes := sourceMeta pairs }, ⟨true, false⟩)
        else
          match llm (ragPrompt (contextStr notes_from_db) query) with
          | Except.error _ =>
              ({ response := llmErrorResponse, source_nodes := [] },
               ⟨true, true⟩)
          | Except.ok txt =>
              ({ response := txt.trim,
                 source_nodes :=
                   (sourceMeta pairs).map (enrichSource notes_from_db) },
               ⟨true, true⟩)

/-- The llama_index `SimpleNodeParser.get_nodes_from_documents([document])`
(external collaborator, modelled by its contract): split the document text
into chunks — the chunking policy itself is a parameter — and produce one
node per chunk, each inheriting the document's metadata dict. -/
def parseNodes (chunk : String → List String) (text : String)
    (metadata : List (String × String)) : List VectorRecord :=
  (chunk text).map (fun c => { text := c, metadata := metadata })

/-- Embedding of `NoteRAG.add_note_vector`: writes `metadata['doc_id'] = note_id`,
parses the document into nodes, returns with no insert when zero nodes
were parsed, otherwise inserts all nodes via `index.insert_nodes`.  The
backend/embedding call may raise (`insertOk = false`), and the method
re-raises (`Except.error`); on success the inserted records are
returned. -/
def add_note_vector (chunk : String → List String) (insertOk : Bool)
    (note_id text : String) (metadata : List (String × String)) :
    Except String (List VectorRecord) :=
  let md := dictSet metadata "doc_id" note_id
  let nodes := parseNodes chunk text md
  if nodes.isEmpty then Except.ok []
  else if insertOk then Except.ok nodes
  else Except.error "insert_nodes failed"

/-- Chroma `collection.delete(where={"doc_id": note_id})` (external
collaborator, modelled by its contract): remove every record whose
metadata `doc_id` equals `note_id`. -/
def chromaCollectionDelete (recs : List VectorRecord) (note_id : String) :
    List VectorRecord :=
  recs.filter (fun r => !(dictGet r.metadata "doc_id" == some note_id))

/-- Embedding of `NoteRAG.delete_note_vector`: issues the direct Chroma deletion
filtered on the `doc_id` metadata and returns `true`; any exception from
the backend call (`raises = true`) is caught and turned into `false`.
The method is total — no exception escapes it. -/
def delete_note_vector (note_id : String) (recs : List VectorRecord)
    (raises : Bool) : List VectorRecord × Bool :=
  if raises then (recs, false)
  else (chromaCollectionDelete recs note_id, true)

/-! ## Collection naming (`NoteRAG.__init__`, lines 155-169) -/

/-- Membership in the character class `[a-zA-Z0-9_-]` of the sanitizing
regex. -/
def isAllowedChar (c : Char) : Bool :=
  (Char.ofNat 97 ≤ c && c ≤ Char.ofNat 122) ||
  (Char.ofNat 65 ≤ c && c ≤ Char.ofNat 90) ||
  (Char.ofNat 48 ≤ c && c ≤ Char.ofNat 57) ||
  c == '_' || c == '-'

/-- Regex step `re.sub` over `[^a-zA-Z0-9_-]`: replace every disallowed
character with an underscore. -/
def replaceDisallowed (s : List Char) : List Char :=
  s.map (fun c => if isAllowedChar c then c else '_')

/-- Regex step collapsing `_+` to `_`: collapse every run of underscores to one. -/
def collapseUnderscores : List Char → List Char
  | [] => []
  | [c] => [c]
  | c :: d :: rest =>
      if c == '_' && d == '_' then collapseUnderscores (d :: rest)
      else c :: collapseUnderscores (d :: rest)

/-- Python `s.strip('_')`: drop leading and trailing underscores. -/
def stripUnderscores (s : List Char) : List Char :=
  ((s.dropWhile (· == '_')).reverse.dropWhile (· == '_')).reverse

/-- The full sanitization pipeline applied to the user email in
`NoteRAG.__init__`. -/
def sanitizeEmail (email : String) : String :=
  String.mk (stripUnderscores (collapseUnderscores (replaceDisallowed email.toList)))

def collection_name_base : String := "noterag_collection_v2"

/-- The collection name `NoteRAG.__init__` derives: for an authenticated
identity, prefix + `_` + sanitized email (with the `invalid_user`
placeholder when sanitization leaves nothing), truncated to Chroma's
63-character limit; without an identity, the fixed default name. -/
def collectionName (user_email : Option String) : String :=
  match user_email with
  | none => collection_name_base ++ "_default"
  | some email =>
      let sanitized := sanitizeEmail email
      let sanitized := if sanitized = "" then "invalid_user" else sanitized
      String.mk ((collection_name_base ++ "_" ++ sanitized).toList.take 63)

/-- The collection name as the claim states it (spec §6): prefix,
underscore, and the sanitized identity — with no provision for an
identity that sanitizes to the empty string — truncated to the backend
limit; absent identity gives the fixed default.  Stated from the spec's
words, to be compared with `collectionName`. -/
def collectionNameSpec (user_email : Option String) : String :=
  match user_email with
  | none => collection_name_base ++ "_default"
  | some email =>
      String.mk ((collection_name_base ++ "_" ++ sanitizeEmail email).toList.take 63)

/-! ## Write-path handlers (`main.py`) -/

/-- The externally visible steps of a write-path request, in the order
they were performed. -/
inductive Step where
  | relCommit
  | relRollback
  | vecUpsert
deriving Repr, DecidableEq

/-- Embedding of `main.py add_note`: 401 without authentication; the relational insert
commits (or rolls back and aborts with a 500) before anything touches the
vector store; only then is `add_note_vector` attempted, whose failure is
a 500 after the already-committed relational write.  Returns the HTTP
outcome, the resulting vector store, and the ordered step trace.
(`dbOk = false` models the relational insert raising; on an indexing
failure the backend's partial state is not observable to the handler and
is modelled as unchanged — no theorem relies on the store in that
branch.) -/
def add_note (auth : Option String) (dbOk : Bool)
    (chunk : String → List String) (insertOk : Bool) (nt : Note)
    (vstore : List VectorRecord) :
    Except Nat Note × List VectorRecord × List Step :=
  match auth with
  | none => (Except.error 401, vstore, [])
  | some _ =>
      if dbOk then
        match add_note_vector chunk insertOk nt.id nt.text
            [("user_id", nt.user_id), ("title", nt.title),
             ("created_at", nt.created_at)] with
        | Except.ok recs =>
            (Except.ok nt, vstore ++ recs, [Step.relCommit, Step.vecUpsert])
        | Except.error _ =>
            (Except.error 500, vstore, [Step.relCommit, Step.vecUpsert])
      else (Except.error 500, vstore, [Step.relRollback])

/-! ## Concrete fixtures used by counterexamples and witnesses -/

/-- A stored note owned by user `u`, as the write path would create it. -/
def note1 : Note :=
  { id := "note_1", user_id := "u", title := "T", text := "AI is cool",
    created_at := "t1", updated_at := "t2" }

/-- An adapter hit for `note1` as the backend actually returns it: the
internal `node_id` is the chunk UUID assigned at parse time, and the
note's id travels in the `doc_id` metadata. -/
def hitForNote1 : RetrievedNode :=
  { node_id := "chunk-uuid-1",
    metadata := [("user_id", "u"), ("title", "T"), ("created_at", "t1"),
                 ("doc_id", "note_1")],
    score := some 90 }

/-- An adapter hit whose `doc_id` matches no stored row (stale vector). -/
def staleHit : RetrievedNode :=
  { node_id := "chunk-uuid-2", metadata := [("doc_id", "note_stale")],
    score := some 80 }

/-- An adapter hit whose internal `node_id` happens to coincide with
`note1.id` (the only situation in which the source's search join can
fire). -/
def nodeIdHit : RetrievedNode :=
  { node_id := "note_1", metadata := [("doc_id", "note_1")],
    score := some 90 }

/-- A note used by the write-path witness. -/
def note5 : Note :=
  { id := "note_5", user_id := "u", title := "T5", text := "hello",
    created_at := "t1", updated_at := "t2" }

/-! ## Helper lemmas -/

/-- Looking up the key just assigned returns the assigned value. -/
theorem dictGet_dictSet {α : Type} (m : List (String × α)) (k : String)
    (v : α) : dictGet (dictSet m k v) k = some v := by
  simp [dictGet, dictSet]

/-- A successful lookup in a keyed map built from a list returns an
element of that list, keyed as looked up. -/
theorem dictGet_map_mem {β : Type} (l : List β) (key : β → String)
    (k : String) (v : β)
    (h : dictGet (l.map (fun x => (key x, x))) k = some v) :
    v ∈ l ∧ key v = k := by
  simp only [dictGet, Option.map_eq_some'] at h
  obtain ⟨p, hfind, hp2⟩ := h
  have hpred := List.find?_some hfind
  have hmem := List.mem_of_find?_eq_some hfind
  rw [List.mem_reverse, List.mem_map] at hmem
  obtain ⟨x, hx, hpx⟩ := hmem
  subst hpx
  simp only at hpred hp2
  subst hp2
  exact ⟨hx, of_decide_eq_true hpred⟩

/-- Rows returned by the batched owner-filtered query are rows of the
store owned by the requesting user. -/
theorem mem_dbNotesQuery {db : List Note} {ids : List String} {u : String}
    {nt : Note} (h : nt ∈ dbNotesQuery db ids u) :
    nt ∈ db ∧ nt.user_id = u := by
  rw [dbNotesQuery, List.mem_filter] at h
  refine ⟨h.1, ?_⟩
  have h2 := h.2
  simp only [Bool.and_eq_true, beq_iff_eq] at h2
  exact h2.2

/-! ## Claim theorems -/

/-- C3: for every user and question, if retrieval resolves zero notes
(the retriever returns no hits), `query_notes` returns the fixed
"no relevant notes" response with an empty source list and performs no
language-model call. -/
theorem query_notes_zero_hit_short_circuit (u : String) (db : List Note)
    (llm : String → Except String String) (q : String) :
    query_notes (some u) [] db llm q =
      ({ response := noNotesResponse, source_nodes := [] }, ⟨true, false⟩) :=
  rfl

/-- C10: with no user context, `search_notes` returns the empty list and
`query_notes` returns the fixed "user context is required" error response
with an empty source list, in both cases with neither the vector
retriever nor the language model invoked. -/
theorem missing_user_context_short_circuits
    (retrieved : List RetrievedNode) (db : List Note)
    (llm : String → Except String String) (q : String) :
    search_notes none retrieved db = ([], ⟨false, false⟩) ∧
    query_notes none retrieved db llm q =
      ({ response := noUserResponse, source_nodes := [] }, ⟨false, false⟩) :=
  ⟨rfl, rfl⟩

/-- C9: if chunking the note's text produces zero chunks, the vector
upsert returns without inserting anything and without raising. -/
theorem add_note_vector_zero_chunks_noop (chunk : String → List String)
    (insertOk : Bool) (note_id text : String)
    (metadata : List (String × String)) (h : chunk text = []) :
    add_note_vector chunk insertOk note_id text metadata = Except.ok [] := by
  simp [add_note_vector, parseNodes, h]

/-- Witness for C9 at a concrete empty-chunking input. -/
theorem add_note_vector_zero_chunks_noop_witness :
    add_note_vector (fun _ => []) true "note_9" "" [("user_id", "u")] =
      Except.ok [] :=
  add_note_vector_zero_chunks_noop (fun _ => []) true "note_9" ""
    [("user_id", "u")] rfl

/-- C7: every vector record inserted by the upsert carries a metadata
field `doc_id` equal to the note id passed to the call, for every note
id, text and metadata argument (and every chunking outcome). -/
theorem add_note_vector_doc_id_invariant (chunk : String → List String)
    (insertOk : Bool) (note_id text : String)
    (metadata : List (String × String)) (recs : List VectorRecord)
    (hok : add_note_vector chunk insertOk note_id text metadata =
      Except.ok recs) (r : VectorRecord) (hr : r ∈ recs) :
    dictGet r.metadata "doc_id" = some note_id := by
  rw [add_note_vector] at hok
  split at hok
  · cases hok
    cases hr
  · split at hok
    · cases hok
      rw [parseNodes, List.mem_map] at hr
      obtain ⟨c, _, hc⟩ := hr
      subst hc
      exact dictGet_dictSet metadata "doc_id" note_id
    · cases hok

/-- Witness for C7 at a concrete one-chunk input. -/
theorem add_note_vector_doc_id_invariant_witness :
    dictGet (VectorRecord.metadata
      ⟨"hello", [("user_id", "u"), ("doc_id", "note_7")]⟩) "doc_id" =
      some "note_7" :=
  add_note_vector_doc_id_invariant (fun t => [t]) true "note_7" "hello"
    [("user_id", "u")]
    [⟨"hello", [("user_id", "u"), ("doc_id", "note_7")]⟩] rfl
    ⟨"hello", [("user_id", "u"), ("doc_id", "note_7")]⟩ (by simp)

/-- C8: the vector delete issues a deletion filtered on the `doc_id`
metadata and returns `true` exactly when the backend call completes
without raising; on an exception it returns `false` with the store
untouched, and it never propagates (it is a total function into
`List VectorRecord × Bool`). -/
theorem delete_note_vector_error_contract (note_id : String)
    (recs : List VectorRecord) (raises : Bool) :
    ((delete_note_vector note_id recs raises).2 = !raises) ∧
    (raises = true → delete_note_vector note_id recs raises = (recs, false)) ∧
    (raises = false →
      (delete_note_vector note_id recs raises).1 =
        chromaCollectionDelete recs note_id ∧
      ∀ r, r ∈ (delete_note_vector note_id recs raises).1 →
        ¬ dictGet r.metadata "doc_id" = some note_id) := by
  cases raises with
  | true => simp [delete_note_vector]
  | false =>
      refine ⟨by simp [delete_note_vector], by simp, fun _ => ⟨rfl, ?_⟩⟩
      intro r hr
      simp only [delete_note_vector, if_neg Bool.false_ne_true,
        chromaCollectionDelete, List.mem_filter] at hr
      simpa using hr.2

/-- Witness for C8 at a concrete store of two records. -/
theorem delete_note_vector_error_contract_witness :
    delete_note_vector "n1"
        [⟨"a", [("doc_id", "n1")]⟩, ⟨"b", [("doc_id", "n2")]⟩] true =
      ([⟨"a", [("doc_id", "n1")]⟩, ⟨"b", [("doc_id", "n2")]⟩], false) ∧
    ¬ dictGet (VectorRecord.metadata ⟨"b", [("doc_id", "n2")]⟩) "doc_id" =
      some "n1" := by
  constructor
  · exact (delete_note_vector_error_contract "n1"
      [⟨"a", [("doc_id", "n1")]⟩, ⟨"b", [("doc_id", "n2")]⟩] true).2.1 rfl
  · exact ((delete_note_vector_error_contract "n1"
      [⟨"a", [("doc_id", "n1")]⟩, ⟨"b", [("doc_id", "n2")]⟩] false).2.2
        rfl).2 ⟨"b", [("doc_id", "n2")]⟩ (by simp [delete_note_vector,
          chromaCollectionDelete, dictGet])

/-- C4: whenever the language-model invocation raises (the LLM function
fails on every prompt and the run did reach the LLM call), `query_notes`
catches the failure and returns the fixed error-string response with an
empty source list; nothing propagates — the function returns normally. -/
theorem query_notes_llm_failure_caught (u : String)
    (retrieved : List RetrievedNode) (db : List Note) (q msg : String)
    (llm : String → Except String String)
    (hfail : ∀ p, llm p = Except.error msg)
    (hcalled : (query_notes (some u) retrieved db llm q).2.llmCalled = true) :
    (query_notes (some u) retrieved db llm q).1 =
      { response := llmErrorResponse, source_nodes := [] } := by
  by_cases h1 : retrieved.isEmpty = true
  · simp [query_notes, h1] at hcalled
  · by_cases h2 : ((extractPairs retrieved).map (·.1)).isEmpty = true
    · simp [query_notes, h1, h2] at hcalled
    · by_cases h3 :
        (dbNotesQuery db ((extractPairs retrieved).map (·.1)) u).isEmpty = true
      · simp [query_notes, h1, h2, h3] at hcalled
      · simp [query_notes, h1, h2, h3, hfail]

/-- Witness for C4: a run that reaches a failing LLM yields the fixed
error response with no sources. -/
theorem query_notes_llm_failure_caught_witness :
    (query_notes (some "u") [hitForNote1] [note1]
        (fun _ => Except.error "boom") "q").1 =
      { response := llmErrorResponse, source_nodes := [] } :=
  query_notes_llm_failure_caught "u" [hitForNote1] [note1] "q" "boom"
    (fun _ => Except.error "boom") (fun _ => rfl) (by decide)

/-- C5: on the note-creation write path, the relational insert commits
before the vector upsert begins (any trace containing the upsert step has
the commit step strictly before it), and a failing relational insert
aborts the request with a 500 before any vector operation is attempted,
leaving the vector store unchanged. -/
theorem add_note_commit_precedes_vector_upsert (u : String) (dbOk : Bool)
    (chunk : String → List String) (insertOk : Bool) (nt : Note)
    (vstore : List VectorRecord) :
    (Step.vecUpsert ∈ (add_note (some u) dbOk chunk insertOk nt vstore).2.2 →
      (add_note (some u) dbOk chunk insertOk nt vstore).2.2 =
        [Step.relCommit, Step.vecUpsert]) ∧
    add_note (some u) false chunk insertOk nt vstore =
      (Except.error 500, vstore, [Step.relRollback]) ∧
    Step.vecUpsert ∉ [Step.relRollback] := by
  refine ⟨?_, rfl, by decide⟩
  cases dbOk with
  | false => intro h; simp [add_note] at h
  | true =>
      intro _
      cases hav : add_note_vector chunk insertOk nt.id nt.text
          [("user_id", nt.user_id), ("title", nt.title),
           ("created_at", nt.created_at)] with
      | ok recs => simp [add_note, hav]
      | error e => simp [add_note, hav]

/-- Witness for C5: a successful write commits then upserts; a failing
relational insert yields a 500 with an untouched vector store and no
vector step. -/
theorem add_note_commit_precedes_vector_upsert_witness :
    (add_note (some "u") true (fun t => [t]) true note5 []).2.2 =
      [Step.relCommit, Step.vecUpsert] ∧
    add_note (some "u") false (fun t => [t]) true note5 [] =
      (Except.error 500, [], [Step.relRollback]) := by
  have h1 := add_note_commit_precedes_vector_upsert "u" true (fun t => [t])
    true note5 []
  have h2 := add_note_commit_precedes_vector_upsert "u" false (fun t => [t])
    true note5 []
  exact ⟨h1.1 (by decide), h2.2.1⟩

/-- Any entry of `searchCore`'s output is backed by a stored note owned
by the requesting user (the emitted `id` is a DB row's id). -/
theorem searchCore_mem {u : String} {retrieved : List RetrievedNode}
    {db : List Note} {r : SearchResult} (h : r ∈ searchCore u retrieved db) :
    ∃ nt, nt ∈ db ∧ nt.id = r.id ∧ nt.user_id = u := by
  simp only [searchCore] at h
  split at h
  · cases h
  · rw [List.mem_filterMap] at h
    obtain ⟨nid, _, hf⟩ := h
    split at hf
    · rename_i nt heq
      obtain ⟨hmem, _⟩ := dictGet_map_mem _ _ _ _ heq
      obtain ⟨hdb, huser⟩ := mem_dbNotesQuery hmem
      cases hf
      exact ⟨nt, hdb, rfl, huser⟩
    · simp at hf

/-- A `source_nodes` entry of `query_notes` whose id matches no stored
note owned by the requesting user carries no title. -/
theorem query_sources_title {u : String} {retrieved : List RetrievedNode}
    {db : List Note} {llm : String → Except String String} {q : String}
    {s : SourceNode}
    (hs : s ∈ (query_notes (some u) retrieved db llm q).1.source_nodes)
    (hno : ∀ nt, nt ∈ db → nt.id = s.id → ¬ nt.user_id = u) :
    s.title = none := by
  simp only [query_notes] at hs
  split at hs
  · simp at hs
  · split at hs
    · simp at hs
    · split at hs
      · rw [sourceMeta, List.mem_map] at hs
        obtain ⟨p, _, hp⟩ := hs
        rw [← hp]
      · split at hs
        · simp at hs
        · rw [List.mem_map] at hs
          obtain ⟨m, _, hms⟩ := hs
          subst hms
          rw [enrichSource]
          cases hfind : (dbNotesQuery db ((extractPairs retrieved).map (·.1))
              u).find? (fun nt => nt.id == m.id) with
          | none => rfl
          | some nt =>
              exfalso
              have hmem := List.mem_of_find?_eq_some hfind
              have hpred := List.find?_some hfind
              obtain ⟨hdb, huser⟩ := mem_dbNotesQuery hmem
              have hid : nt.id = m.id := by simpa using hpred
              exact hno nt hdb hid huser

/-- C2 (counterexample): a `doc_id` returned by the adapter with no
matching relational row owned by the requesting user *does* appear in
`query_notes`'s source list — here the stale id `"note_stale"` is
emitted (with a null title) even though the store holds no row at all. -/
theorem query_notes_source_includes_stale_doc_id :
    (query_notes (some "u") [staleHit] []
        (fun _ => Except.ok "ans") "q").1 =
      { response := noContentResponse,
        source_nodes := [{ id := "note_stale", score := some 80,
                           title := none }] } :=
  rfl

/-- C2 (amended): a join-missed `doc_id` never appears in `search`'s
result list (every search result is backed by a stored note owned by the
requesting user) and its absence is not an error; in `answer`, the missed
note's content is excluded from the model context, but the `doc_id`
itself may still appear in the source list — there it carries a null
title. -/
theorem retrieval_join_miss_handling_amended (u : String)
    (retrieved : List RetrievedNode) (db : List Note)
    (llm : String → Except String String) (q : String) :
    (∀ r ∈ (search_notes (some u) retrieved db).1,
       ∃ nt, nt ∈ db ∧ nt.id = r.id ∧ nt.user_id = u) ∧
    (∀ s ∈ (query_notes (some u) retrieved db llm q).1.source_nodes,
       (∀ nt, nt ∈ db → nt.id = s.id → ¬ nt.user_id = u) →
         s.title = none) := by
  constructor
  · intro r hr
    exact searchCore_mem hr
  · intro s hs hno
    exact query_sources_title hs hno

/-- Witness for the amended C2, at concrete inputs on both conjuncts. -/
theorem retrieval_join_miss_handling_amended_witness :
    (∃ nt, nt ∈ [note1] ∧ nt.id = "note_1" ∧ nt.user_id = "u") ∧
    SourceNode.title { id := "note_stale", score := some 80,
                       title := none } = none := by
  have h1 := retrieval_join_miss_handling_amended "u" [nodeIdHit] [note1]
    (fun _ => Except.ok "ans") "q"
  have h2 := retrieval_join_miss_handling_amended "u" [staleHit] []
    (fun _ => Except.ok "ans") "q"
  refine ⟨h1.1 { id := "note_1", text := "AI is cool", title := "T",
                 created_at := "t1", updated_at := "t2", score := some 90 }
            (by decide), ?_⟩
  exact h2.2 { id := "note_stale", score := some 80, title := none }
    (by decide) (by simp)

/-- C1: evaluated at a reachable input — one stored note, one adapter hit
for it carrying the note's id in its `doc_id` metadata and the chunk UUID
as its internal `node_id` — the source's `search_notes` returns nothing,
because its batched lookup filters `Note.id` against the hits'
`node_id`s (chunk UUIDs) instead of the collected `doc_id`s; the
spec-stated search (`searchSpec`) returns the note with its score. -/
theorem search_notes_node_id_join_returns_nothing :
    search_notes (some "u") [hitForNote1] [note1] = ([], ⟨true, false⟩) ∧
    searchSpec "u" [hitForNote1] [note1] =
      [{ id := "note_1", text := "AI is cool", title := "T",
         created_at := "t1", updated_at := "t2", score := some 90 }] :=
  ⟨rfl, rfl⟩

/-- C6 (counterexample): for the identity `"."` — sanitized to the empty
string — the code falls back to the fixed placeholder `invalid_user`,
while the claim's naming rule yields the bare `prefix + "_"` name. -/
theorem collectionName_invalid_user_fallback_cex :
    collectionName (some ".") = "noterag_collection_v2_invalid_user" ∧
    collectionNameSpec (some ".") = "noterag_collection_v2_" ∧
    collectionName (some ".") ≠ collectionNameSpec (some ".") := by
  refine ⟨rfl, rfl, by decide⟩

/-- C6 (amended): the collection name follows the claim's sanitization
rule whenever the sanitized identity is non-empty; an identity that
sanitizes to the empty string uses the fixed placeholder `invalid_user`
instead; an absent identity yields the fixed default name. -/
theorem collectionName_amended (e : String) :
    collectionName none = collection_name_base ++ "_default" ∧
    (¬ sanitizeEmail e = "" →
       collectionName (some e) = collectionNameSpec (some e)) ∧
    (sanitizeEmail e = "" →
       collectionName (some e) =
         String.mk ((collection_name_base ++ "_invalid_user").toList.take 63)) := by
  refine ⟨rfl, ?_, ?_⟩
  · intro h
    simp [collectionName, collectionNameSpec, h]
  · intro h
    simp [collectionName, h]

/-- Witness for the amended C6, on both branches. -/
theorem collectionName_amended_witness :
    collectionName (some "a@b.com") = collectionNameSpec (some "a@b.com") ∧
    collectionName (some ".") =
      String.mk ((collection_name_base ++ "_invalid_user").toList.take 63) :=
  ⟨(collectionName_amended "a@b.com").2.1 (by decide),
   (collectionName_amended ".").2.2 (by decide)⟩

end NoteRAG
